import Mathlib

/-!
Verification of the STAG spatial data service (Go) against its
natural-language specification.  The Go source is shallowly embedded:
byte slices become `List Nat` (each element a byte value), machine
integers become `Nat`/`Int` with explicit reduction modulo `2^32`
where overflow matters, Go maps become association lists, and the
WebSocket hub becomes an explicit state-transition system over an
operation list.
-/

namespace Stag

/-! ## 32-bit word arithmetic (crypto/sha256 uses uint32) -/

/-- Reduction modulo `2^32`, the embedding of Go uint32 overflow. -/
def w32 (n : Nat) : Nat := n % 4294967296

/-- Rotate the 32-bit word x right by n positions. -/
def rotr (n x : Nat) : Nat := w32 ((x >>> n) ||| (x <<< (32 - n)))

/-- Bitwise complement of a 32-bit word. -/
def notw (x : Nat) : Nat := x ^^^ 4294967295

/-! ## SHA-256 (embedding of Go crypto/sha256 as used by computeMeshHash)

The Go code streams `h.Write` calls into a `sha256.New()` state and
finishes with `h.Sum(nil)`; the streaming interface hashes exactly the
concatenation of the written byte slices, so the embedding hashes one
concatenated byte list (FIPS 180-4). -/

/-- SHA-256 round constants (decimal rendering of the FIPS 180-4 table). -/
def K256 : List Nat :=
  [1116352408, 1899447441, 3049323471, 3921009573, 961987163,
   1508970993, 2453635748, 2870763221, 3624381080, 310598401,
   607225278, 1426881987, 1925078388, 2162078206, 2614888103,
   3248222580, 3835390401, 4022224774, 264347078, 604807628,
   770255983, 1249150122, 1555081692, 1996064986, 2554220882,
   2821834349, 2952996808, 3210313671, 3336571891, 3584528711,
   113926993, 338241895, 666307205, 773529912, 1294757372,
   1396182291, 1695183700, 1986661051, 2177026350, 2456956037,
   2730485921, 2820302411, 3259730800, 3345764771, 3516065817,
   3600352804, 4094571909, 275423344, 430227734, 506948616,
   659060556, 883997877, 958139571, 1322822218, 1537002063,
   1747873779, 1955562222, 2024104815, 2227730452, 2361852424,
   2428436474, 2756734187, 3204031479, 3329325298]

/-- SHA-256 initial hash state (decimal rendering of the FIPS 180-4 values). -/
def sha256H0 : List Nat :=
  [1779033703, 3144134277, 1013904242,
   2773480762, 1359893119, 2600822924,
   528734635, 1541459225]

/-- Choice function of the SHA-256 compression loop. -/
def shaCh (x y z : Nat) : Nat := (x &&& y) ^^^ (notw x &&& z)

/-- Majority function of the SHA-256 compression loop. -/
def shaMaj (x y z : Nat) : Nat := (x &&& y) ^^^ (x &&& z) ^^^ (y &&& z)

/-- Big sigma-0 of SHA-256. -/
def bigSigma0 (x : Nat) : Nat := rotr 2 x ^^^ rotr 13 x ^^^ rotr 22 x

/-- Big sigma-1 of SHA-256. -/
def bigSigma1 (x : Nat) : Nat := rotr 6 x ^^^ rotr 11 x ^^^ rotr 25 x

/-- Small sigma-0 of SHA-256. -/
def smallSigma0 (x : Nat) : Nat := rotr 7 x ^^^ rotr 18 x ^^^ (x >>> 3)

/-- Small sigma-1 of SHA-256. -/
def smallSigma1 (x : Nat) : Nat := rotr 17 x ^^^ rotr 19 x ^^^ (x >>> 10)

/-- Eight-byte big-endian encoding of a length in bits. -/
def be64 (n : Nat) : List Nat :=
  [(n >>> 56) % 256, (n >>> 48) % 256, (n >>> 40) % 256, (n >>> 32) % 256,
   (n >>> 24) % 256, (n >>> 16) % 256, (n >>> 8) % 256, n % 256]

/-- Four-byte big-endian encoding of a 32-bit word. -/
def be32 (n : Nat) : List Nat :=
  [(n >>> 24) % 256, (n >>> 16) % 256, (n >>> 8) % 256, n % 256]

/-- SHA-256 message padding: append the bit 1, zeros up to 56 mod 64,
and the 64-bit big-endian message length in bits. -/
def sha256Pad (msg : List Nat) : List Nat :=
  let L := msg.length
  let k := (119 - L % 64) % 64
  msg ++ [128] ++ List.replicate k 0 ++ be64 (8 * L)

/-- Split a padded message into 64-byte blocks. -/
def sha256Chunks (l : List Nat) : List (List Nat) :=
  (List.range (l.length / 64)).map (fun i => (l.drop (64 * i)).take 64)

/-- Parse one 64-byte block into sixteen big-endian 32-bit words. -/
def blockWords (block : List Nat) : List Nat :=
  (List.range 16).map (fun i =>
    block.getD (4 * i) 0 * 16777216 + block.getD (4 * i + 1) 0 * 65536 +
    block.getD (4 * i + 2) 0 * 256 + block.getD (4 * i + 3) 0)

/-- Extend sixteen message words to the 64-entry message schedule. -/
def sha256Schedule (ws : List Nat) : List Nat :=
  (List.range 48).foldl (fun acc _ =>
    let n := acc.length
    acc.concat (w32 (smallSigma1 (acc.getD (n - 2) 0) + acc.getD (n - 7) 0 +
                     smallSigma0 (acc.getD (n - 15) 0) + acc.getD (n - 16) 0))) ws

/-- One round of the SHA-256 compression function on the eight-word state. -/
def sha256Round (st : List Nat) (kt wt : Nat) : List Nat :=
  let a := st.getD 0 0
  let b := st.getD 1 0
  let c := st.getD 2 0
  let d := st.getD 3 0
  let e := st.getD 4 0
  let f := st.getD 5 0
  let g := st.getD 6 0
  let hh := st.getD 7 0
  let t1 := w32 (hh + bigSigma1 e + shaCh e f g + K256.getD kt 0 + wt)
  let t2 := w32 (bigSigma0 a + shaMaj a b c)
  [w32 (t1 + t2), a, b, c, w32 (d + t1), e, f, g]

/-- Compress one 64-byte block into the running hash state. -/
def sha256Compress (hs : List Nat) (block : List Nat) : List Nat :=
  let ws := sha256Schedule (blockWords block)
  let st := (List.range 64).foldl (fun st t => sha256Round st t (ws.getD t 0)) hs
  (List.range 8).map (fun i => w32 (hs.getD i 0 + st.getD i 0))

/-- SHA-256 digest of a byte list, as a list of 32 bytes. -/
def sha256 (msg : List Nat) : List Nat :=
  ((sha256Chunks (sha256Pad msg)).foldl sha256Compress sha256H0).foldr
    (fun h acc => be32 h ++ acc) []

/-! ## Lowercase hex encoding (encoding/hex.EncodeToString) -/

/-- Lowercase hexadecimal digit for a value below 16. -/
def hexChar (n : Nat) : Char := Char.ofNat (if n < 10 then 48 + n else 87 + n)

/-- Lowercase hex encoding of a byte list, two digits per byte. -/
def hexEncode (bs : List Nat) : String :=
  String.mk (bs.foldr (fun b acc => hexChar (b >>> 4) :: hexChar (b % 16) :: acc) [])

/-- The sixteen lowercase hexadecimal digit characters. -/
def hexDigits : List Char := "0123456789abcdef".toList

/-! ## API data model (pkg/api/types.go)

Byte slices become `List Nat`; a Go nil slice and an empty slice are
both the empty list, matching the fact that only `len` and element
bytes of these fields are ever observed. -/

/-- Embedding of api.Mesh (pkg/api/types.go lines 36-48). -/
structure Mesh where
  id : String
  anchorID : String
  vertices : List Nat := []
  faces : List Nat := []
  normals : List Nat := []
  hash : String := ""
  isDelta : Bool := false
  baseMeshID : String := ""
  deltaData : List Nat := []
  compressionLevel : Int := 0
  timestamp : Int := 0
deriving DecidableEq

/-- Embedding of api.Pose; float64 coordinates are modelled as rationals. -/
structure Pose where
  x : Rat := 0
  y : Rat := 0
  z : Rat := 0
  rotation : List Rat := []
deriving DecidableEq

/-- Embedding of api.Anchor (metadata is never inspected by the code
under verification and is omitted). -/
structure Anchor where
  id : String
  sessionID : String
  pose : Pose := {}
  timestamp : Int := 0
deriving DecidableEq

/-- Embedding of api.QueryParams (pkg/api/types.go lines 51-61);
float64 radius is modelled as a rational. -/
structure QueryParams where
  sessionID : String := ""
  anchorID : String := ""
  radius : Rat := 0
  since : Int := 0
  untilTs : Int := 0
  limit : Int := 0
  includeMeshes : Bool := false
  includeDeleted : Bool := false
deriving DecidableEq

/-! ## Errors (pkg/errors/errors.go) -/

/-- Embedding of errors.APIError. -/
structure APIError where
  message : String
  statusCode : Nat
  code : String
deriving DecidableEq

/-- Embedding of errors.ValidationError (errors.go lines 94-101): a 400
error whose message carries the validation prefix. -/
def ValidationError (message : String) : APIError :=
  { message := "validation error: " ++ message
    statusCode := 400
    code := "VALIDATION_ERROR" }

/-! ## Association lists (embedding of Go maps) -/

/-- Lookup in an association list, the embedding of a Go map read. -/
def alistLookup {α β : Type} [DecidableEq α] : List (α × β) → α → Option β
  | [], _ => none
  | (k, v) :: rest, key => if k = key then some v else alistLookup rest key

/-- Replace-or-insert in an association list, the embedding of a Go map write. -/
def alistSet {α β : Type} [DecidableEq α] : List (α × β) → α → β → List (α × β)
  | [], key, v => [(key, v)]
  | (k, w) :: rest, key, v =>
      if k = key then (k, v) :: rest else (k, w) :: alistSet rest key v

/-- Key removal from an association list, the embedding of a Go map delete. -/
def alistRemove {α β : Type} [DecidableEq α] : List (α × β) → α → List (α × β)
  | [], _ => []
  | (k, v) :: rest, key =>
      if k = key then alistRemove rest key else (k, v) :: alistRemove rest key

/-! ## Mesh hashing and dedup processing (internal/spatial/repository.go) -/

/-- Embedding of Repository.computeMeshHash (repository.go lines 394-403):
write vertices, write faces, write normals only when non-empty, then
hex-encode the SHA-256 digest. -/
def computeMeshHash (m : Mesh) : String :=
  hexEncode (sha256 ((m.vertices ++ m.faces) ++
    (if 0 < m.normals.length then m.normals else [])))

/-- The in-memory dedup cache meshHashCache, a Go map from content
hash to canonical mesh id. -/
abbrev HashCache := List (String × String)

/-- Embedding of Repository.processMeshForStorage (repository.go lines
122-160).  Returns the mesh to store, the saved byte count, and the
updated dedup cache, or a validation error. -/
def processMeshForStorage (cache : HashCache) (m : Mesh) :
    Except APIError (Mesh × Nat × HashCache) :=
  if m.isDelta then
    if m.baseMeshID = "" then
      .error (ValidationError "delta mesh missing base_mesh_id")
    else
      let stored :=
        if 0 < m.deltaData.length then
          { m with vertices := m.deltaData, faces := [], normals := [] }
        else m
      .ok (stored, 0, cache)
  else
    let h := computeMeshHash m
    let hashed := { m with hash := h }
    match alistLookup cache h with
    | some existingID =>
        let saved := hashed.vertices.length + hashed.faces.length + hashed.normals.length
        .ok ({ hashed with id := existingID }, saved, cache)
    | none =>
        .ok (hashed, 0, cache.concat (h, hashed.id))

/-! ## Query planner (Repository.buildQuery, repository.go lines 242-301) -/

/-- Values placed in the AQL bind-variable map. -/
inductive BindValue where
  | str (s : String)
  | int (n : Int)
  | rat (q : Rat)
  | col (name : String)
deriving DecidableEq

/-- The spatial filter condition appended by buildQuery when both
anchor_id and a positive radius are present (repository.go lines 267-275). -/
def spatialCondition : String :=
  "LET refAnchor = FIRST(
  FOR a IN @@collection
  FILTER a.id == @anchor_id
  RETURN a
)
FILTER refAnchor != null
FILTER GEO_DISTANCE([refAnchor.pose.x, refAnchor.pose.y], [doc.pose.x, doc.pose.y]) <= @radius"

/-- Conjunctive filter conditions collected by buildQuery, in
declaration order: session, since, until, spatial. -/
def queryConditions (p : QueryParams) : List String :=
  (if p.sessionID ≠ "" then ["doc.session_id == @session_id"] else []) ++
  (if p.since > 0 then ["doc.timestamp >= @since"] else []) ++
  (if p.untilTs > 0 then ["doc.timestamp <= @until"] else []) ++
  (if p.anchorID ≠ "" ∧ p.radius > 0 then [spatialCondition] else [])

/-- Bind variables collected by buildQuery, in insertion order.  The
radius is bound multiplied by 1000 (meters to millimeters); the limit
is bound only when positive. -/
def queryBindings (p : QueryParams) : List (String × BindValue) :=
  [("@collection", BindValue.col "anchors")] ++
  (if p.sessionID ≠ "" then [("session_id", BindValue.str p.sessionID)] else []) ++
  (if p.since > 0 then [("since", BindValue.int p.since)] else []) ++
  (if p.untilTs > 0 then [("until", BindValue.int p.untilTs)] else []) ++
  (if p.anchorID ≠ "" ∧ p.radius > 0 then
    [("anchor_id", BindValue.str p.anchorID), ("radius", BindValue.rat (p.radius * 1000))]
   else []) ++
  (if p.limit > 0 then [("limit", BindValue.int p.limit)] else [])

/-- Assembly of the AQL query text from the condition list and the
limit: base iteration, FILTER/AND chain, SORT, LIMIT (the limit value
is printed into the text with Sprintf, default 100), RETURN. -/
def queryText (conds : List String) (limit : Int) : String :=
  let base := "FOR doc IN @@collection"
  let filtered :=
    match conds with
    | [] => base
    | c :: rest => rest.foldl (fun q c2 => q ++ "\nAND " ++ c2) (base ++ "\nFILTER " ++ c)
  let sorted := filtered ++ "\nSORT doc.timestamp DESC"
  let limited :=
    if limit > 0 then sorted ++ "\nLIMIT " ++ toString limit
    else sorted ++ "\nLIMIT 100"
  limited ++ "\nRETURN doc"

/-- Embedding of Repository.buildQuery: the query string and the
bind-variable map. -/
def buildQuery (p : QueryParams) : String × List (String × BindValue) :=
  (queryText (queryConditions p) p.limit, queryBindings p)

/-! ## Query evaluation semantics

The store evaluates the query built by buildQuery.  The evaluator
below is the embedding of that AQL text under documented AQL
semantics: each conjunct filters exactly when buildQuery appended it,
results are sorted by timestamp descending and truncated to the
LIMIT.  GEO_DISTANCE is an external function of the store and is a
parameter. -/

/-- Truth of the filter chain of the built query on one anchor
document.  The spatial conjunct looks up the reference anchor by id
(FIRST of the id filter), null-guards, and compares the geodesic
distance against the bound radius, which buildQuery scaled by 1000. -/
def anchorMatches (geo : Pose → Pose → Rat) (store : List Anchor)
    (p : QueryParams) (doc : Anchor) : Bool :=
  (if p.sessionID ≠ "" then doc.sessionID = p.sessionID else true) &&
  (if p.since > 0 then p.since ≤ doc.timestamp else true) &&
  (if p.untilTs > 0 then doc.timestamp ≤ p.untilTs else true) &&
  (if p.anchorID ≠ "" ∧ p.radius > 0 then
    match store.find? (fun a => a.id = p.anchorID) with
    | none => false
    | some ref => geo ref.pose doc.pose ≤ p.radius * 1000
   else true)

/-- Insertion step of sorting anchors by timestamp descending. -/
def insertDesc (a : Anchor) : List Anchor → List Anchor
  | [] => [a]
  | b :: rest => if b.timestamp < a.timestamp then a :: b :: rest else b :: insertDesc a rest

/-- Sort anchors by timestamp descending (SORT doc.timestamp DESC). -/
def sortByTimestampDesc (l : List Anchor) : List Anchor :=
  l.foldr insertDesc []

/-- The LIMIT value of the built query: the positive limit, or the
default 100 printed by buildQuery. -/
def effectiveLimit (p : QueryParams) : Nat :=
  if p.limit > 0 then p.limit.toNat else 100

/-- Evaluation of the query built by buildQuery against a store of
anchor documents. -/
def runQuery (geo : Pose → Pose → Rat) (store : List Anchor)
    (p : QueryParams) : List Anchor :=
  (sortByTimestampDesc (store.filter (anchorMatches geo store p))).take (effectiveLimit p)

/-! ## GetAnchor handler (handlers GetAnchor, unnamed part_000 lines 88-128) -/

/-- Outcome of GET /api/v1/anchors/:id: the HTTP status with the
anchor body on 200. -/
inductive GetAnchorResult where
  | ok (a : Anchor)
  | badRequest
  | notFound
deriving DecidableEq

/-- Embedding of QueryHandler.GetAnchor: require a non-empty path id,
query the repository with params holding only AnchorID and Limit 1
(radius is left at its zero value), 404 on an empty result, otherwise
200 with the first returned anchor. -/
def GetAnchor (geo : Pose → Pose → Rat) (store : List Anchor)
    (anchorID : String) : GetAnchorResult :=
  if anchorID = "" then .badRequest
  else
    let params : QueryParams := { anchorID := anchorID, limit := 1 }
    match runQuery geo store params with
    | [] => .notFound
    | a :: _ => .ok a

/-! ## Session hub (websocket Hub, cmd/stag sources lines 134-310)

The hub loop serializes register, unregister and broadcast operations;
its state is the session-to-clients map, the per-session
connections_active gauge, the per-client bounded send queues, and a
log of send-queue close events.  The slow-consumer eviction in
broadcastMessage posts an unregister operation back to the hub
channel, so it surfaces as a later unregister operation in the
operation list. -/

/-- A live client: distinct ids model distinct client pointers; the
bound session id is fixed at construction. -/
structure Client where
  id : Nat
  sessionID : String
deriving DecidableEq

/-- Record of one close of a send queue, tagged with the code path
that performed it. -/
inductive CloseEvent where
  | registerReject (c : Client)
  | unregisterClose (c : Client)
deriving DecidableEq

/-- The client a close event refers to. -/
def eventClient : CloseEvent → Client
  | .registerReject c => c
  | .unregisterClose c => c

/-- Embedding of BroadcastMessage. -/
structure BroadcastMessage where
  sessionID : String
  message : String
  exclude : Option Client := none
deriving DecidableEq

/-- The per-session cap maxClientsPerSession set by NewHub. -/
def maxClientsPerSession : Nat := 10

/-- Capacity of a client send queue (make(chan []byte, 256)). -/
def sendQueueCapacity : Nat := 256

/-- Hub state: session map, gauge, send queues, and close log. -/
structure HubState where
  clients : List (String × List Client) := []
  gauge : List (String × Int) := []
  queues : List (Client × List String) := []
  closes : List CloseEvent := []
deriving DecidableEq

/-- The client set of a session (a missing entry reads as empty). -/
def sessionClients (s : HubState) (sid : String) : List Client :=
  (alistLookup s.clients sid).getD []

/-- Embedding of Hub.registerClient: lazily create the session entry,
reject by closing the send queue when the set has reached the cap,
otherwise insert and bump the gauge. -/
def registerClient (s : HubState) (c : Client) : HubState :=
  let clients0 :=
    if (alistLookup s.clients c.sessionID).isNone
    then alistSet s.clients c.sessionID [] else s.clients
  let sess := (alistLookup clients0 c.sessionID).getD []
  if maxClientsPerSession ≤ sess.length then
    { s with clients := clients0, closes := s.closes.concat (.registerReject c) }
  else
    { s with
        clients := alistSet clients0 c.sessionID (if c ∈ sess then sess else sess.concat c)
        gauge := alistSet s.gauge c.sessionID ((alistLookup s.gauge c.sessionID).getD 0 + 1) }

/-- Embedding of Hub.unregisterClient: when the client is present,
remove it, close its send queue, decrement the gauge, and drop the
session entry when it empties. -/
def unregisterClient (s : HubState) (c : Client) : HubState :=
  match alistLookup s.clients c.sessionID with
  | none => s
  | some sess =>
      if c ∈ sess then
        let sess2 := sess.filter (fun x => x ≠ c)
        { s with
            clients :=
              if sess2.length = 0 then alistRemove s.clients c.sessionID
              else alistSet s.clients c.sessionID sess2
            gauge := alistSet s.gauge c.sessionID ((alistLookup s.gauge c.sessionID).getD 0 - 1)
            closes := s.closes.concat (.unregisterClose c) }
      else s

/-- Embedding of Hub.broadcastMessage: snapshot the session set, skip
the excluded client, and attempt a non-blocking enqueue on each other
client; a full queue leaves the message undelivered (the code then
posts an unregister operation, which appears later in the operation
list). -/
def broadcastMessage (s : HubState) (m : BroadcastMessage) : HubState :=
  match alistLookup s.clients m.sessionID with
  | none => s
  | some sess =>
      { s with
          queues := sess.foldl (fun qs c =>
            if some c = m.exclude then qs
            else
              let q := (alistLookup qs c).getD []
              if q.length < sendQueueCapacity then alistSet qs c (q.concat m.message)
              else qs) s.queues }

/-- The broadcast message built by Client.handleDataUpdate after a
successful repository call: the client session, the serialized
envelope, and the sender itself as the excluded client. -/
def handleDataUpdateBroadcast (c : Client) (payload : String) : BroadcastMessage :=
  { sessionID := c.sessionID, message := payload, exclude := some c }

/-- One operation consumed by the hub event loop. -/
inductive HubOp where
  | register (c : Client)
  | unregister (c : Client)
  | broadcast (m : BroadcastMessage)
deriving DecidableEq

/-- Dispatch of one hub loop iteration. -/
def hubStep (s : HubState) : HubOp → HubState
  | .register c => registerClient s c
  | .unregister c => unregisterClient s c
  | .broadcast m => broadcastMessage s m

/-- Run of the hub loop over an operation list. -/
def hubRun (s : HubState) (ops : List HubOp) : HubState :=
  ops.foldl hubStep s

/-- The empty hub produced by NewHub. -/
def initialHub : HubState := {}

/-- Number of close events recorded for a given client. -/
def closeCount (evs : List CloseEvent) (c : Client) : Nat :=
  evs.countP (fun e => eventClient e = c)

/-- Number of register operations for a given client in an operation list. -/
def regCount (ops : List HubOp) (c : Client) : Nat :=
  ops.countP (fun op => op = HubOp.register c)

/-! ## Concrete inputs used by counterexamples and witnesses -/

/-- The first test mesh of repository_test.go. -/
def meshM1 : Mesh :=
  { id := "mesh1", anchorID := "anchor1", vertices := [1, 2, 3, 4, 5, 6], faces := [0, 1, 2] }

/-- The second test mesh of repository_test.go, identical geometry to meshM1. -/
def meshM2 : Mesh :=
  { id := "mesh2", anchorID := "anchor1", vertices := [1, 2, 3, 4, 5, 6], faces := [0, 1, 2] }

/-- A delta mesh with a base id but empty delta_data and non-empty faces. -/
def deltaNoPayload : Mesh :=
  { id := "d1", anchorID := "a1", faces := [1], isDelta := true, baseMeshID := "b1" }

/-- A delta mesh with a base id and a non-empty delta payload. -/
def deltaWithPayload : Mesh :=
  { id := "d2", anchorID := "a1", faces := [7], isDelta := true, baseMeshID := "b1",
    deltaData := [9] }

/-- A delta mesh missing its base id. -/
def deltaNoBase : Mesh :=
  { id := "d0", anchorID := "a1", isDelta := true, deltaData := [1, 2, 3] }

/-- First mesh of the concatenation-collision pair. -/
def meshConcatA : Mesh := { id := "m-A", anchorID := "a1", vertices := [1], faces := [2, 3] }

/-- Second mesh of the concatenation-collision pair: different field
split, same concatenated bytes. -/
def meshConcatB : Mesh := { id := "m-B", anchorID := "a1", vertices := [1, 2], faces := [3] }

/-- A trivial geodesic distance function for concrete evaluations. -/
def geoZero : Pose → Pose → Rat := fun _ _ => 0

/-- A stored anchor with id a1. -/
def anchorA1 : Anchor :=
  { id := "a1", sessionID := "s1"
    pose := { x := 1, y := 2, z := 3, rotation := [0, 0, 0, 1] }, timestamp := 5 }

/-- Query params with session filter and limit 7. -/
def paramsLimit7 : QueryParams := { sessionID := "s1", limit := 7 }

/-- Query params with session filter and limit 8. -/
def paramsLimit8 : QueryParams := { sessionID := "s1", limit := 8 }

/-- Query params with session filter and the zero-value limit. -/
def paramsLimit0 : QueryParams := { sessionID := "s1" }

/-- Query params with every filter enabled. -/
def paramsAllP : QueryParams :=
  { sessionID := "s", anchorID := "a", radius := 3, since := 1, untilTs := 2, limit := 5 }

/-- Query params with the same enabled filters as paramsAllP but
different values and the same limit. -/
def paramsAllQ : QueryParams :=
  { sessionID := "t", anchorID := "b", radius := 7, since := 9, untilTs := 8, limit := 5 }

/-- Ten register operations for distinct clients of one session. -/
def capOps : List HubOp :=
  [.register ⟨0, "s"⟩, .register ⟨1, "s"⟩, .register ⟨2, "s"⟩, .register ⟨3, "s"⟩,
   .register ⟨4, "s"⟩, .register ⟨5, "s"⟩, .register ⟨6, "s"⟩, .register ⟨7, "s"⟩,
   .register ⟨8, "s"⟩, .register ⟨9, "s"⟩]

/-- The eleventh client of the capped session. -/
def clientEleven : Client := ⟨10, "s"⟩

/-- A hub state with two live clients in session s2. -/
def hubTwoClients : HubState :=
  { clients := [("s2", [⟨0, "s2"⟩, ⟨1, "s2"⟩])]
    gauge := [("s2", 2)]
    queues := [(⟨0, "s2"⟩, []), (⟨1, "s2"⟩, [])] }

/-- A broadcast excluding client 0 of session s2. -/
def broadcastExcluding0 : BroadcastMessage :=
  { sessionID := "s2", message := "update", exclude := some ⟨0, "s2"⟩ }

/-! ## Association list lemmas -/

theorem alistLookup_set_self {α β : Type} [DecidableEq α] (l : List (α × β)) (k : α) (v : β) :
    alistLookup (alistSet l k v) k = some v := by
  induction l with
  | nil => simp [alistSet, alistLookup]
  | cons kv rest ih =>
      obtain ⟨k0, w⟩ := kv
      by_cases h : k0 = k
      · simp [alistSet, h, alistLookup]
      · simp [alistSet, h, alistLookup, ih]

theorem alistLookup_set_ne {α β : Type} [DecidableEq α] (l : List (α × β)) (k k2 : α) (v : β)
    (h : k2 ≠ k) : alistLookup (alistSet l k v) k2 = alistLookup l k2 := by
  induction l with
  | nil => simp [alistSet, alistLookup, Ne.symm h]
  | cons kv rest ih =>
      obtain ⟨k0, w⟩ := kv
      by_cases h0 : k0 = k
      · subst h0
        simp [alistSet, alistLookup, Ne.symm h]
      · simp only [alistSet, if_neg h0, alistLookup]
        by_cases h1 : k0 = k2
        · simp [h1]
        · simp [h1, ih]

theorem alistLookup_remove_self {α β : Type} [DecidableEq α] (l : List (α × β)) (k : α) :
    alistLookup (alistRemove l k) k = none := by
  induction l with
  | nil => simp [alistRemove, alistLookup]
  | cons kv rest ih =>
      obtain ⟨k0, w⟩ := kv
      by_cases h : k0 = k
      · simp [alistRemove, h, ih]
      · simp [alistRemove, h, alistLookup, ih]

theorem alistLookup_remove_ne {α β : Type} [DecidableEq α] (l : List (α × β)) (k k2 : α)
    (h : k2 ≠ k) : alistLookup (alistRemove l k) k2 = alistLookup l k2 := by
  induction l with
  | nil => simp [alistRemove]
  | cons kv rest ih =>
      obtain ⟨k0, w⟩ := kv
      by_cases h0 : k0 = k
      · subst h0
        simp [alistRemove, alistLookup, Ne.symm h, ih]
      · simp only [alistRemove, if_neg h0, alistLookup]
        by_cases h1 : k0 = k2
        · simp [h1]
        · simp [h1, ih]

theorem alistLookup_concat_self {α β : Type} [DecidableEq α] (l : List (α × β)) (k : α) (v : β)
    (h : alistLookup l k = none) : alistLookup (l.concat (k, v)) k = some v := by
  induction l with
  | nil => simp [alistLookup]
  | cons kv rest ih =>
      obtain ⟨k0, w⟩ := kv
      by_cases h0 : k0 = k
      · simp [alistLookup, h0] at h
      · simp only [alistLookup, if_neg h0] at h
        have hr := ih h
        simp only [List.concat_eq_append] at hr ⊢
        simpa [alistLookup, h0] using hr

/-! ## Digest and hex encoding lemmas -/

theorem sha256_bytes_lt (msg : List Nat) : ∀ b ∈ sha256 msg, b < 256 := by
  unfold sha256
  generalize (sha256Chunks (sha256Pad msg)).foldl sha256Compress sha256H0 = hs
  induction hs with
  | nil => simp
  | cons h rest ih =>
      intro b hb
      simp only [List.foldr_cons, List.mem_append] at hb
      rcases hb with hb | hb
      · simp only [be32, List.mem_cons, List.mem_singleton] at hb
        rcases hb with rfl | rfl | rfl | rfl | hb
        · exact Nat.mod_lt _ (by norm_num)
        · exact Nat.mod_lt _ (by norm_num)
        · exact Nat.mod_lt _ (by norm_num)
        · exact Nat.mod_lt _ (by norm_num)
        · simp at hb
      · exact ih b hb

theorem hexChar_mem_of_lt : ∀ n < 16, hexChar n ∈ hexDigits := by decide

theorem hexEncode_mem_hexDigits (bs : List Nat) (hb : ∀ b ∈ bs, b < 256) :
    ∀ ch ∈ (hexEncode bs).toList, ch ∈ hexDigits := by
  induction bs with
  | nil => intro ch hch; simp [hexEncode, String.toList] at hch
  | cons b rest ih =>
      intro ch hch
      have hb256 : b < 256 := hb b (List.mem_cons_self b rest)
      simp only [hexEncode, String.toList, List.foldr_cons, String.mk] at hch
      simp only [List.mem_cons] at hch
      rcases hch with rfl | rfl | hch
      · apply hexChar_mem_of_lt
        have h4 : b >>> 4 = b / 16 := by
          simp [Nat.shiftRight_eq_div_pow]
        rw [h4]
        omega
      · exact hexChar_mem_of_lt _ (Nat.mod_lt _ (by norm_num))
      · exact ih (fun x hx => hb x (List.mem_cons_of_mem b hx)) ch hch

/-! ## Claim theorems: mesh processing -/

/-- Claim C2 as stated is false: for a delta mesh with a non-empty
base_mesh_id but empty delta_data, processMeshForStorage returns the
mesh unchanged, so faces and normals are not cleared.  Here
deltaNoPayload keeps its non-empty faces. -/
theorem C2_counterexample :
    processMeshForStorage [] deltaNoPayload = .ok (deltaNoPayload, 0, []) ∧
    deltaNoPayload.faces ≠ [] := by
  exact ⟨rfl, by decide⟩

/-- Claim C2 (amended): for every mesh with is_delta and non-empty
base_mesh_id, processMeshForStorage succeeds with 0 saved bytes; when
delta_data is non-empty the returned mesh has vertices equal to the
original delta_data and empty faces and normals, and when delta_data
is empty the mesh is returned unchanged. -/
theorem C2_delta_normalization (cache : HashCache) (m : Mesh)
    (hd : m.isDelta = true) (hb : m.baseMeshID ≠ "") :
    (0 < m.deltaData.length →
      processMeshForStorage cache m =
        .ok ({ m with vertices := m.deltaData, faces := [], normals := [] }, 0, cache)) ∧
    (m.deltaData.length = 0 →
      processMeshForStorage cache m = .ok (m, 0, cache)) := by
  constructor
  · intro h
    simp [processMeshForStorage, hd, hb, h]
  · intro h
    simp [processMeshForStorage, hd, hb, h]

/-- Witness for C2_delta_normalization at the concrete delta mesh
deltaWithPayload over the empty cache. -/
theorem C2_delta_normalization_witness :
    deltaWithPayload.isDelta = true ∧ deltaWithPayload.baseMeshID ≠ "" ∧
    processMeshForStorage [] deltaWithPayload =
      .ok ({ deltaWithPayload with vertices := [9], faces := [], normals := [] }, 0, []) :=
  ⟨rfl, by decide,
   (C2_delta_normalization [] deltaWithPayload rfl (by decide)).1 (by decide)⟩

/-- Claim C6: processMeshForStorage errors exactly on a delta mesh
with empty base_mesh_id, and the error is ValidationError of the
message delta mesh missing base_mesh_id, carrying HTTP status 400 and
code VALIDATION_ERROR; every other input yields a mesh and no error. -/
theorem C6_error_iff (cache : HashCache) (m : Mesh) :
    (m.isDelta = true ∧ m.baseMeshID = "" →
      processMeshForStorage cache m =
        .error (ValidationError "delta mesh missing base_mesh_id") ∧
      (ValidationError "delta mesh missing base_mesh_id").statusCode = 400 ∧
      (ValidationError "delta mesh missing base_mesh_id").code = "VALIDATION_ERROR") ∧
    (¬(m.isDelta = true ∧ m.baseMeshID = "") →
      ∃ r : Mesh × Nat × HashCache, processMeshForStorage cache m = .ok r) := by
  constructor
  · rintro ⟨hd, hb⟩
    exact ⟨by simp [processMeshForStorage, hd, hb], rfl, rfl⟩
  · intro h
    unfold processMeshForStorage
    by_cases hd : m.isDelta = true
    · have hb : ¬(m.baseMeshID = "") := fun hb => h ⟨hd, hb⟩
      simp only [hd, if_true, if_neg hb]
      exact ⟨_, rfl⟩
    · simp only [Bool.not_eq_true] at hd
      simp only [hd]
      cases alistLookup cache (computeMeshHash m) with
      | none => exact ⟨_, rfl⟩
      | some existingID => exact ⟨_, rfl⟩

/-- Witness for C6_error_iff at the concrete delta mesh deltaNoBase. -/
theorem C6_error_iff_witness :
    (deltaNoBase.isDelta = true ∧ deltaNoBase.baseMeshID = "") ∧
    processMeshForStorage [] deltaNoBase =
      .error (ValidationError "delta mesh missing base_mesh_id") :=
  ⟨⟨rfl, rfl⟩, ((C6_error_iff [] deltaNoBase).1 ⟨rfl, rfl⟩).1⟩

/-- Claim C5: computeMeshHash is the lowercase hex of SHA-256 over
vertices, faces and normals concatenated (normals appended only when
non-empty, which coincides with plain concatenation); it is
deterministic in the three byte fields; and at vertices
[1,2,3,4,5,6], faces [0,1,2], no normals, it equals the hex digest of
SHA-256 of the nine bytes 01 02 03 04 05 06 00 01 02. -/
theorem C5_hash_spec :
    (∀ m : Mesh, computeMeshHash m = hexEncode (sha256 (m.vertices ++ m.faces ++ m.normals))) ∧
    (∀ m : Mesh, ∀ ch ∈ (computeMeshHash m).toList, ch ∈ hexDigits) ∧
    (∀ m1 m2 : Mesh, m1.vertices = m2.vertices → m1.faces = m2.faces →
      m1.normals = m2.normals → computeMeshHash m1 = computeMeshHash m2) ∧
    computeMeshHash meshM1 = hexEncode (sha256 [1, 2, 3, 4, 5, 6, 0, 1, 2]) := by
  have hconcat : ∀ m : Mesh,
      computeMeshHash m = hexEncode (sha256 (m.vertices ++ m.faces ++ m.normals)) := by
    intro m
    unfold computeMeshHash
    by_cases hn : 0 < m.normals.length
    · simp [hn, List.append_assoc]
    · have hnil : m.normals = [] := by
        cases hnn : m.normals with
        | nil => rfl
        | cons a l => rw [hnn] at hn; simp at hn
      simp [hn, hnil]
  refine ⟨hconcat, ?_, ?_, ?_⟩
  · intro m ch hch
    rw [hconcat m] at hch
    exact hexEncode_mem_hexDigits _ (sha256_bytes_lt _) ch hch
  · intro m1 m2 hv hf hn
    rw [hconcat m1, hconcat m2, hv, hf, hn]
  · rw [hconcat meshM1]
    rfl

/-- Witness for C5_hash_spec: the two byte-identical test meshes of
repository_test.go hash identically. -/
theorem C5_hash_spec_witness :
    (meshM1.vertices = meshM2.vertices ∧ meshM1.faces = meshM2.faces ∧
     meshM1.normals = meshM2.normals) ∧
    computeMeshHash meshM1 = computeMeshHash meshM2 :=
  ⟨⟨rfl, rfl, rfl⟩, C5_hash_spec.2.2.1 meshM1 meshM2 rfl rfl rfl⟩

/-- Claim C4: two non-delta meshes with byte-equal vertices, faces and
normals hash identically; processing the first on a cache miss returns
it (with the computed hash attached, as the code assigns before the
lookup) with 0 saved and records the hash; processing the second then
hits the cache, rewrites its id to the first id, and reports saved
equal to the sum of the three byte lengths. -/
theorem C4_dedup (cache : HashCache) (m1 m2 : Mesh)
    (h1 : m1.isDelta = false) (h2 : m2.isDelta = false)
    (hv : m1.vertices = m2.vertices) (hf : m1.faces = m2.faces)
    (hn : m1.normals = m2.normals)
    (hmiss : alistLookup cache (computeMeshHash m1) = none) :
    computeMeshHash m1 = computeMeshHash m2 ∧
    processMeshForStorage cache m1 =
      .ok ({ m1 with hash := computeMeshHash m1 }, 0,
           cache.concat (computeMeshHash m1, m1.id)) ∧
    processMeshForStorage (cache.concat (computeMeshHash m1, m1.id)) m2 =
      .ok ({ m2 with hash := computeMeshHash m2, id := m1.id },
           m2.vertices.length + m2.faces.length + m2.normals.length,
           cache.concat (computeMeshHash m1, m1.id)) := by
  have hh : computeMeshHash m1 = computeMeshHash m2 := by
    unfold computeMeshHash
    rw [hv, hf, hn]
  refine ⟨hh, ?_, ?_⟩
  · simp [processMeshForStorage, h1, hmiss]
  · have hlook : alistLookup (cache ++ [(computeMeshHash m1, m1.id)])
        (computeMeshHash m2) = some m1.id := by
      rw [← hh]
      have hc := alistLookup_concat_self cache (computeMeshHash m1) m1.id hmiss
      simpa [List.concat_eq_append] using hc
    simp [processMeshForStorage, h2, hlook]

/-- Witness for C4_dedup: the two byte-identical test meshes of
repository_test.go processed in order over the empty cache. -/
theorem C4_dedup_witness :
    alistLookup ([] : HashCache) (computeMeshHash meshM1) = none ∧
    computeMeshHash meshM1 = computeMeshHash meshM2 ∧
    processMeshForStorage (([] : HashCache).concat (computeMeshHash meshM1, meshM1.id)) meshM2 =
      .ok ({ meshM2 with hash := computeMeshHash meshM2, id := meshM1.id },
           meshM2.vertices.length + meshM2.faces.length + meshM2.normals.length,
           ([] : HashCache).concat (computeMeshHash meshM1, meshM1.id)) :=
  ⟨rfl, (C4_dedup [] meshM1 meshM2 rfl rfl rfl rfl rfl rfl).1,
        (C4_dedup [] meshM1 meshM2 rfl rfl rfl rfl rfl rfl).2.2⟩

set_option maxRecDepth 100000 in
/-- Claim C10: meshConcatA and meshConcatB have different vertices
fields but equal concatenated bytes, so computeMeshHash collides and
processMeshForStorage treats the second as a duplicate of the first,
rewriting its id to m-A with saved 3. -/
theorem C10_concat_collision :
    meshConcatA.vertices ≠ meshConcatB.vertices ∧
    computeMeshHash meshConcatA = computeMeshHash meshConcatB ∧
    processMeshForStorage [] meshConcatA =
      .ok ({ meshConcatA with hash := computeMeshHash meshConcatA }, 0,
           ([] : HashCache).concat (computeMeshHash meshConcatA, "m-A")) ∧
    processMeshForStorage (([] : HashCache).concat (computeMeshHash meshConcatA, "m-A"))
        meshConcatB =
      .ok ({ meshConcatB with hash := computeMeshHash meshConcatB, id := "m-A" }, 3,
           ([] : HashCache).concat (computeMeshHash meshConcatA, "m-A")) := by
  exact ⟨by decide, rfl, rfl, rfl⟩

/-! ## Claim theorems: GetAnchor -/

/-- Claim C1 is violated by the code: GetAnchor builds QueryParams
with only AnchorID and Limit 1, leaving Radius at 0, and buildQuery
applies the anchor filter only when the radius is positive, so the
endpoint returns the most recent anchor of the whole store regardless
of id.  Against a store holding only anchorA1, requesting the missing
id returns 200 with anchorA1 instead of 404; the empty store yields
404. -/
theorem C1_getAnchor_bug :
    GetAnchor geoZero [anchorA1] "missing" = .ok anchorA1 ∧
    anchorA1.id ≠ "missing" ∧
    GetAnchor geoZero [] "missing" = .notFound := by
  refine ⟨rfl, by decide, rfl⟩

/-! ## Claim theorems: query planner bindings -/

/-- Claim C3 as stated is false: the limit is printed into the query
text with Sprintf, so the text differs between limits 7 and 8 even
though all filters agree, and when the limit is not positive the
effective limit 100 is not placed in the bindings map at all. -/
theorem C3_counterexample :
    (buildQuery paramsLimit7).1 ≠ (buildQuery paramsLimit8).1 ∧
    alistLookup (buildQuery paramsLimit7).2 "limit" = some (BindValue.int 7) ∧
    alistLookup (buildQuery paramsLimit0).2 "limit" = none := by
  exact ⟨by decide, by decide, by decide⟩

/-- Claim C3 (amended): the filter values session_id, since, until,
anchor_id and radius (the latter scaled by 1000) are placed in the
bindings map whenever their filters are active, and the query text
does not depend on their values, only on which filters are active;
the limit is placed in the bindings map only when positive, and its
value is textually interpolated into the query text. -/
theorem C3_bindings (p q : QueryParams) :
    (p.sessionID ≠ "" → ("session_id", BindValue.str p.sessionID) ∈ (buildQuery p).2) ∧
    (p.since > 0 → ("since", BindValue.int p.since) ∈ (buildQuery p).2) ∧
    (p.untilTs > 0 → ("until", BindValue.int p.untilTs) ∈ (buildQuery p).2) ∧
    (p.anchorID ≠ "" ∧ p.radius > 0 →
      ("anchor_id", BindValue.str p.anchorID) ∈ (buildQuery p).2 ∧
      ("radius", BindValue.rat (p.radius * 1000)) ∈ (buildQuery p).2) ∧
    (p.limit > 0 → ("limit", BindValue.int p.limit) ∈ (buildQuery p).2) ∧
    ((p.sessionID = "" ↔ q.sessionID = "") → (p.since > 0 ↔ q.since > 0) →
     (p.untilTs > 0 ↔ q.untilTs > 0) → (p.anchorID = "" ↔ q.anchorID = "") →
     (p.radius > 0 ↔ q.radius > 0) → p.limit = q.limit →
     (buildQuery p).1 = (buildQuery q).1) := by
  refine ⟨?_, ?_, ?_, ?_, ?_, ?_⟩
  · intro h
    simp [buildQuery, queryBindings, h]
  · intro h
    simp [buildQuery, queryBindings, h]
  · intro h
    simp [buildQuery, queryBindings, h]
  · intro h
    constructor <;> simp [buildQuery, queryBindings, h]
  · intro h
    simp [buildQuery, queryBindings, h]
  · intro h1 h2 h3 h4 h5 h6
    have e1 : (if p.sessionID ≠ "" then ["doc.session_id == @session_id"] else []) =
        (if q.sessionID ≠ "" then ["doc.session_id == @session_id"] else []) :=
      if_congr (not_congr h1) rfl rfl
    have e2 : (if p.since > 0 then ["doc.timestamp >= @since"] else []) =
        (if q.since > 0 then ["doc.timestamp >= @since"] else []) :=
      if_congr h2 rfl rfl
    have e3 : (if p.untilTs > 0 then ["doc.timestamp <= @until"] else []) =
        (if q.untilTs > 0 then ["doc.timestamp <= @until"] else []) :=
      if_congr h3 rfl rfl
    have e4 : (if p.anchorID ≠ "" ∧ p.radius > 0 then [spatialCondition] else []) =
        (if q.anchorID ≠ "" ∧ q.radius > 0 then [spatialCondition] else []) :=
      if_congr (and_congr (not_congr h4) h5) rfl rfl
    have hc : queryConditions p = queryConditions q := by
      unfold queryConditions
      rw [e1, e2, e3, e4]
    show queryText (queryConditions p) p.limit = queryText (queryConditions q) q.limit
    rw [hc, h6]

/-- Witness for C3_bindings at two concrete params records with every
filter active, different filter values, and equal limits. -/
theorem C3_bindings_witness :
    (paramsAllP.sessionID ≠ "" ∧ paramsAllP.limit > 0) ∧
    ("session_id", BindValue.str "s") ∈ (buildQuery paramsAllP).2 ∧
    ("limit", BindValue.int 5) ∈ (buildQuery paramsAllP).2 ∧
    (buildQuery paramsAllP).1 = (buildQuery paramsAllQ).1 :=
  ⟨⟨by decide, by decide⟩,
   (C3_bindings paramsAllP paramsAllQ).1 (by decide),
   (C3_bindings paramsAllP paramsAllQ).2.2.2.2.1 (by decide),
   (C3_bindings paramsAllP paramsAllQ).2.2.2.2.2 (by decide) (by decide) (by decide)
     (by decide) (by decide) rfl⟩

/-! ## Claim theorems: session hub -/

theorem broadcastMessage_queue_preserved (s : HubState) (m : BroadcastMessage) (c : Client)
    (hex : m.exclude = some c) :
    alistLookup (broadcastMessage s m).queues c = alistLookup s.queues c := by
  unfold broadcastMessage
  cases hsess : alistLookup s.clients m.sessionID with
  | none => rfl
  | some sess =>
      show alistLookup (sess.foldl _ s.queues) c = alistLookup s.queues c
      clear hsess
      generalize s.queues = qs
      induction sess generalizing qs with
      | nil => rfl
      | cons d rest ih =>
          simp only [List.foldl_cons]
          by_cases hd : some d = m.exclude
          · rw [if_pos hd]
            exact ih qs
          · rw [if_neg hd]
            have hdc : d ≠ c := by
              intro hEq
              rw [hEq, hex] at hd
              exact hd rfl
            by_cases hq : ((alistLookup qs d).getD []).length < sendQueueCapacity
            · rw [if_pos hq]
              rw [ih (alistSet qs d (((alistLookup qs d).getD []).concat m.message))]
              exact alistLookup_set_ne qs d c _ (Ne.symm hdc)
            · rw [if_neg hq]
              exact ih qs

/-- Claim C9: a broadcast whose Exclude field is a client c never
enqueues onto the send queue of c, whose queue is left unchanged; in
particular the broadcast built by handleDataUpdate for a data update
received from c (which sets Exclude to c) is never delivered back to
c. -/
theorem C9_broadcast_exclude (s : HubState) (m : BroadcastMessage) (c : Client)
    (hex : m.exclude = some c) :
    alistLookup (broadcastMessage s m).queues c = alistLookup s.queues c ∧
    (∀ payload, alistLookup
        (broadcastMessage s (handleDataUpdateBroadcast c payload)).queues c =
      alistLookup s.queues c) :=
  ⟨broadcastMessage_queue_preserved s m c hex,
   fun payload => broadcastMessage_queue_preserved s (handleDataUpdateBroadcast c payload) c rfl⟩

/-- Witness for C9_broadcast_exclude on a hub with two live clients in
session s2 and a broadcast excluding client 0. -/
theorem C9_broadcast_exclude_witness :
    broadcastExcluding0.exclude = some ⟨0, "s2"⟩ ∧
    alistLookup (broadcastMessage hubTwoClients broadcastExcluding0).queues ⟨0, "s2"⟩ =
      alistLookup hubTwoClients.queues ⟨0, "s2"⟩ :=
  ⟨rfl, (C9_broadcast_exclude hubTwoClients broadcastExcluding0 ⟨0, "s2"⟩ rfl).1⟩

/-! ## Step equations for the hub transitions -/

theorem registerClient_eq_none (s : HubState) (c : Client)
    (hl : alistLookup s.clients c.sessionID = none) :
    registerClient s c =
      { s with
          clients := alistSet (alistSet s.clients c.sessionID []) c.sessionID ([].concat c)
          gauge := alistSet s.gauge c.sessionID ((alistLookup s.gauge c.sessionID).getD 0 + 1) } := by
  simp [registerClient, hl, alistLookup_set_self, maxClientsPerSession]

theorem registerClient_eq_cap (s : HubState) (c : Client) (sess : List Client)
    (hl : alistLookup s.clients c.sessionID = some sess)
    (hcap : maxClientsPerSession ≤ sess.length) :
    registerClient s c = { s with closes := s.closes.concat (.registerReject c) } := by
  simp [registerClient, hl, hcap]

theorem registerClient_eq_insert (s : HubState) (c : Client) (sess : List Client)
    (hl : alistLookup s.clients c.sessionID = some sess)
    (hcap : ¬ maxClientsPerSession ≤ sess.length) :
    registerClient s c =
      { s with
          clients := alistSet s.clients c.sessionID (if c ∈ sess then sess else sess.concat c)
          gauge := alistSet s.gauge c.sessionID ((alistLookup s.gauge c.sessionID).getD 0 + 1) } := by
  simp [registerClient, hl, hcap]

theorem unregisterClient_eq_none (s : HubState) (c : Client)
    (hl : alistLookup s.clients c.sessionID = none) :
    unregisterClient s c = s := by
  simp [unregisterClient, hl]

theorem unregisterClient_eq_absent (s : HubState) (c : Client) (sess : List Client)
    (hl : alistLookup s.clients c.sessionID = some sess) (hc : c ∉ sess) :
    unregisterClient s c = s := by
  simp [unregisterClient, hl, hc]

theorem unregisterClient_eq_present (s : HubState) (c : Client) (sess : List Client)
    (hl : alistLookup s.clients c.sessionID = some sess) (hc : c ∈ sess) :
    unregisterClient s c =
      { s with
          clients :=
            if (sess.filter (fun x => x ≠ c)).length = 0
            then alistRemove s.clients c.sessionID
            else alistSet s.clients c.sessionID (sess.filter (fun x => x ≠ c))
          gauge := alistSet s.gauge c.sessionID ((alistLookup s.gauge c.sessionID).getD 0 - 1)
          closes := s.closes.concat (.unregisterClose c) } := by
  simp [unregisterClient, hl, hc]

theorem broadcastMessage_clients (s : HubState) (m : BroadcastMessage) :
    (broadcastMessage s m).clients = s.clients := by
  unfold broadcastMessage
  cases alistLookup s.clients m.sessionID <;> rfl

theorem broadcastMessage_closes (s : HubState) (m : BroadcastMessage) :
    (broadcastMessage s m).closes = s.closes := by
  unfold broadcastMessage
  cases alistLookup s.clients m.sessionID <;> rfl

/-! ## Per-session cap invariant -/

theorem hubStep_cap (s : HubState) (op : HubOp)
    (h : ∀ sid, (sessionClients s sid).length ≤ maxClientsPerSession) :
    ∀ sid, (sessionClients (hubStep s op) sid).length ≤ maxClientsPerSession := by
  cases op with
  | register c =>
      show ∀ sid, (sessionClients (registerClient s c) sid).length ≤ maxClientsPerSession
      cases hl : alistLookup s.clients c.sessionID with
      | none =>
          rw [registerClient_eq_none s c hl]
          intro sid
          by_cases hs : sid = c.sessionID
          · subst hs
            simp [sessionClients, alistLookup_set_self, maxClientsPerSession]
          · simp only [sessionClients, alistLookup_set_ne _ _ _ _ hs]
            exact h sid
      | some sess =>
          by_cases hcap : maxClientsPerSession ≤ sess.length
          · rw [registerClient_eq_cap s c sess hl hcap]
            exact h
          · rw [registerClient_eq_insert s c sess hl hcap]
            intro sid
            have hlen : sess.length ≤ maxClientsPerSession - 1 := by
              simp only [maxClientsPerSession] at hcap ⊢
              omega
            by_cases hs : sid = c.sessionID
            · subst hs
              simp only [sessionClients, alistLookup_set_self, Option.getD_some]
              by_cases hmem : c ∈ sess
              · simp only [if_pos hmem]
                simp only [maxClientsPerSession] at hlen ⊢
                omega
              · simp only [if_neg hmem, List.concat_eq_append, List.length_append,
                  List.length_singleton]
                simp only [maxClientsPerSession] at hlen ⊢
                omega
            · simp only [sessionClients, alistLookup_set_ne _ _ _ _ hs]
              exact h sid
  | unregister c =>
      show ∀ sid, (sessionClients (unregisterClient s c) sid).length ≤ maxClientsPerSession
      cases hl : alistLookup s.clients c.sessionID with
      | none =>
          rw [unregisterClient_eq_none s c hl]
          exact h
      | some sess =>
          by_cases hc : c ∈ sess
          · rw [unregisterClient_eq_present s c sess hl hc]
            intro sid
            by_cases hfe : (sess.filter (fun x => x ≠ c)).length = 0
            · simp only [if_pos hfe]
              by_cases hs : sid = c.sessionID
              · subst hs
                simp [sessionClients, alistLookup_remove_self]
              · simp only [sessionClients, alistLookup_remove_ne _ _ _ hs]
                exact h sid
            · simp only [if_neg hfe]
              by_cases hs : sid = c.sessionID
              · subst hs
                simp only [sessionClients, alistLookup_set_self, Option.getD_some]
                have hle := List.length_filter_le (fun x => x ≠ c) sess
                have hsess := h c.sessionID
                simp only [sessionClients, hl, Option.getD_some] at hsess
                omega
              · simp only [sessionClients, alistLookup_set_ne _ _ _ _ hs]
                exact h sid
          · rw [unregisterClient_eq_absent s c sess hl hc]
            exact h
  | broadcast m =>
      intro sid
      show (sessionClients (broadcastMessage s m) sid).length ≤ maxClientsPerSession
      simp only [sessionClients, broadcastMessage_clients]
      exact h sid

theorem hubRun_cap (ops : List HubOp) (s : HubState)
    (h : ∀ sid, (sessionClients s sid).length ≤ maxClientsPerSession) :
    ∀ sid, (sessionClients (hubRun s ops) sid).length ≤ maxClientsPerSession := by
  induction ops generalizing s with
  | nil => exact h
  | cons op rest ih => exact ih (hubStep s op) (hubStep_cap s op h)

theorem registerClient_at_cap (s : HubState) (c : Client)
    (h : (sessionClients s c.sessionID).length = maxClientsPerSession) :
    registerClient s c = { s with closes := s.closes.concat (.registerReject c) } := by
  cases hl : alistLookup s.clients c.sessionID with
  | none =>
      exfalso
      simp only [sessionClients, hl, Option.getD_none, List.length_nil,
        maxClientsPerSession] at h
      omega
  | some sess =>
      have hcap : maxClientsPerSession ≤ sess.length := by
        simp only [sessionClients, hl, Option.getD_some] at h
        omega
      exact registerClient_eq_cap s c sess hl hcap

/-- Claim C7: in every hub state reachable from the empty hub, each
session holds at most maxClientsPerSession (10) clients, and a
register arriving when the session of the registering client already
holds 10 closes that send queue (recording a register-path close
event) while leaving the client sets, the gauge and the queues
unchanged. -/
theorem C7_session_cap (ops : List HubOp) (c : Client) :
    (∀ sid, (sessionClients (hubRun initialHub ops) sid).length ≤ maxClientsPerSession) ∧
    ((sessionClients (hubRun initialHub ops) c.sessionID).length = maxClientsPerSession →
      registerClient (hubRun initialHub ops) c =
        { hubRun initialHub ops with
            closes := (hubRun initialHub ops).closes.concat (.registerReject c) }) :=
  ⟨hubRun_cap ops initialHub (fun _ => by simp [sessionClients, initialHub, alistLookup]),
   fun h => registerClient_at_cap (hubRun initialHub ops) c h⟩

/-- Witness for C7_session_cap: after ten registrations in session s,
the session is full and the eleventh register is rejected with a
register-path close. -/
theorem C7_session_cap_witness :
    (sessionClients (hubRun initialHub capOps) clientEleven.sessionID).length =
      maxClientsPerSession ∧
    registerClient (hubRun initialHub capOps) clientEleven =
      { hubRun initialHub capOps with
          closes := (hubRun initialHub capOps).closes.concat (.registerReject clientEleven) } :=
  ⟨by decide, (C7_session_cap capOps clientEleven).2 (by decide)⟩

/-! ## Close events are counted per client -/

theorem closeCount_concat (evs : List CloseEvent) (e : CloseEvent) (c : Client) :
    closeCount (evs.concat e) c =
      closeCount evs c + (if eventClient e = c then 1 else 0) := by
  simp [closeCount, List.concat_eq_append, List.countP_append, List.countP_cons]

theorem regCount_cons (op : HubOp) (ops : List HubOp) (c : Client) :
    regCount (op :: ops) c = (if op = HubOp.register c then 1 else 0) + regCount ops c := by
  simp [regCount, List.countP_cons, Nat.add_comm]

/-- Claim C8 as stated is false: registering an eleventh client into a
full session closes its send queue from the register path, so the
close log of this reachable run holds a register-path close and no
unregister-path close. -/
theorem C8_counterexample :
    (hubRun initialHub (capOps.concat (.register clientEleven))).closes =
      [.registerReject clientEleven] := by
  decide

theorem hubStep_close_le (s : HubState) (op : HubOp) (c : Client) :
    closeCount (hubStep s op).closes c +
      (if c ∈ sessionClients (hubStep s op) c.sessionID then 1 else 0) ≤
    closeCount s.closes c + (if op = HubOp.register c then 1 else 0) +
      (if c ∈ sessionClients s c.sessionID then 1 else 0) := by
  cases op with
  | register d =>
      simp only [hubStep, HubOp.register.injEq]
      cases hl : alistLookup s.clients d.sessionID with
      | none =>
          have heq := registerClient_eq_none s d hl
          have hA : (registerClient s d).closes = s.closes := by rw [heq]
          rw [hA]
          by_cases hs : c.sessionID = d.sessionID
          · have hT : c ∉ sessionClients s c.sessionID := by
              rw [hs]
              simp [sessionClients, hl]
            have hM : (c ∈ sessionClients (registerClient s d) c.sessionID) ↔ c = d := by
              rw [heq]
              simp [sessionClients, hs, alistLookup_set_self]
            by_cases hdc : c = d
            · subst hdc
              simp only [if_pos (hM.mpr rfl), if_pos rfl, if_true, if_neg hT]
              omega
            · simp only [if_neg (fun hh => hdc (hM.mp hh)), if_neg (fun hh : d = c => hdc hh.symm),
                if_neg hT]
              omega
          · have hM : (c ∈ sessionClients (registerClient s d) c.sessionID) ↔
                c ∈ sessionClients s c.sessionID := by
              rw [heq]
              simp only [sessionClients, alistLookup_set_ne _ _ _ _ hs]
            by_cases hT : c ∈ sessionClients s c.sessionID
            · simp only [if_pos (hM.mpr hT), if_pos hT]
              omega
            · simp only [if_neg (fun hh => hT (hM.mp hh)), if_neg hT]
              omega
      | some sess =>
          by_cases hcap : maxClientsPerSession ≤ sess.length
          · have heq := registerClient_eq_cap s d sess hl hcap
            have hA : (registerClient s d).closes = s.closes.concat (.registerReject d) := by
              rw [heq]
            have hM : (c ∈ sessionClients (registerClient s d) c.sessionID) ↔
                c ∈ sessionClients s c.sessionID := by
              rw [heq]
              exact Iff.rfl
            rw [hA, closeCount_concat]
            have he : eventClient (.registerReject d) = d := rfl
            rw [he]
            by_cases hT : c ∈ sessionClients s c.sessionID
            · simp only [if_pos (hM.mpr hT), if_pos hT]
              omega
            · simp only [if_neg (fun hh => hT (hM.mp hh)), if_neg hT]
              omega
          · have heq := registerClient_eq_insert s d sess hl hcap
            have hA : (registerClient s d).closes = s.closes := by rw [heq]
            rw [hA]
            by_cases hs : c.sessionID = d.sessionID
            · have hT0 : sessionClients s c.sessionID = sess := by
                rw [hs]
                simp [sessionClients, hl]
              have hM : (c ∈ sessionClients (registerClient s d) c.sessionID) ↔
                  (c ∈ sess ∨ c = d) := by
                rw [heq]
                simp only [sessionClients, hs, alistLookup_set_self, Option.getD_some]
                by_cases hmem : d ∈ sess
                · simp only [if_pos hmem]
                  constructor
                  · exact fun hh => Or.inl hh
                  · rintro (hh | rfl)
                    · exact hh
                    · exact hmem
                · simp [if_neg hmem, List.concat_eq_append]
              rw [hT0]
              by_cases hcm : c ∈ sess
              · by_cases hdc : d = c
                · subst hdc
                  simp only [if_pos (hM.mpr (Or.inl hcm)), if_pos rfl, if_true, if_pos hcm]
                  omega
                · simp only [if_pos (hM.mpr (Or.inl hcm)), if_neg hdc, if_pos hcm]
                  omega
              · by_cases hdc : d = c
                · subst hdc
                  simp only [if_pos (hM.mpr (Or.inr rfl)), if_pos rfl, if_true, if_neg hcm]
                  omega
                · simp only [if_neg (fun hh => ((hM.mp hh).elim hcm (fun hcd => hdc hcd.symm))),
                    if_neg hdc, if_neg hcm]
                  omega
            · have hM : (c ∈ sessionClients (registerClient s d) c.sessionID) ↔
                  c ∈ sessionClients s c.sessionID := by
                rw [heq]
                simp only [sessionClients, alistLookup_set_ne _ _ _ _ hs]
              by_cases hT : c ∈ sessionClients s c.sessionID
              · simp only [if_pos (hM.mpr hT), if_pos hT]
                omega
              · simp only [if_neg (fun hh => hT (hM.mp hh)), if_neg hT]
                omega
  | unregister d =>
      simp only [hubStep]
      have hR : (if HubOp.unregister d = HubOp.register c then 1 else 0) = (0 : Nat) := by
        simp
      rw [hR]
      cases hl : alistLookup s.clients d.sessionID with
      | none =>
          simp only [unregisterClient_eq_none s d hl]
          omega
      | some sess =>
          by_cases hc : d ∈ sess
          · have heq := unregisterClient_eq_present s d sess hl hc
            have hA : (unregisterClient s d).closes = s.closes.concat (.unregisterClose d) := by
              rw [heq]
            rw [hA, closeCount_concat]
            have he : eventClient (.unregisterClose d) = d := rfl
            rw [he]
            by_cases hs : c.sessionID = d.sessionID
            · have hT0 : sessionClients s c.sessionID = sess := by
                rw [hs]
                simp [sessionClients, hl]
              have hM : (c ∈ sessionClients (unregisterClient s d) c.sessionID) ↔
                  (c ∈ sess ∧ c ≠ d) := by
                rw [heq]
                by_cases hfe : (sess.filter (fun x => x ≠ d)).length = 0
                · simp only [sessionClients, hs, if_pos hfe, alistLookup_remove_self,
                    Option.getD_none, List.not_mem_nil, false_iff]
                  rintro ⟨hcm, hcd⟩
                  have hcf : c ∈ sess.filter (fun x => x ≠ d) := by
                    simp [List.mem_filter, hcm, hcd]
                  rw [List.length_eq_zero] at hfe
                  rw [hfe] at hcf
                  simp at hcf
                · simp only [sessionClients, hs, if_neg hfe, alistLookup_set_self,
                    Option.getD_some, List.mem_filter]
                  simp
              rw [hT0]
              by_cases hdc : d = c
              · subst hdc
                simp only [if_neg (fun hh => (hM.mp hh).2 rfl), if_pos rfl, if_true, if_pos hc]
                omega
              · simp only [if_neg hdc]
                by_cases hcm : c ∈ sess
                · simp only [if_pos (hM.mpr ⟨hcm, fun hh => hdc hh.symm⟩), if_pos hcm]
                  omega
                · simp only [if_neg (fun hh => hcm (hM.mp hh).1), if_neg hcm]
                  omega
            · have hM : (c ∈ sessionClients (unregisterClient s d) c.sessionID) ↔
                  c ∈ sessionClients s c.sessionID := by
                rw [heq]
                by_cases hfe : (sess.filter (fun x => x ≠ d)).length = 0
                · simp only [sessionClients, if_pos hfe, alistLookup_remove_ne _ _ _ hs]
                · simp only [sessionClients, if_neg hfe, alistLookup_set_ne _ _ _ _ hs]
              have hdc : ¬(d = c) := by
                intro hh
                subst hh
                exact hs rfl
              simp only [if_neg hdc]
              by_cases hT : c ∈ sessionClients s c.sessionID
              · simp only [if_pos (hM.mpr hT), if_pos hT]
                omega
              · simp only [if_neg (fun hh => hT (hM.mp hh)), if_neg hT]
                omega
          · simp only [unregisterClient_eq_absent s d sess hl hc]
            omega
  | broadcast m =>
      simp only [hubStep]
      have hR : (if HubOp.broadcast m = HubOp.register c then 1 else 0) = (0 : Nat) := by
        simp
      rw [hR, broadcastMessage_closes]
      have hM : (c ∈ sessionClients (broadcastMessage s m) c.sessionID) ↔
          c ∈ sessionClients s c.sessionID := by
        simp only [sessionClients, broadcastMessage_clients]
      by_cases hT : c ∈ sessionClients s c.sessionID
      · simp only [if_pos (hM.mpr hT), if_pos hT]
        omega
      · simp only [if_neg (fun hh => hT (hM.mp hh)), if_neg hT]
        omega

theorem hubRun_close_le (ops : List HubOp) (s : HubState) (c : Client) :
    closeCount (hubRun s ops).closes c +
      (if c ∈ sessionClients (hubRun s ops) c.sessionID then 1 else 0) ≤
    closeCount s.closes c + regCount ops c +
      (if c ∈ sessionClients s c.sessionID then 1 else 0) := by
  induction ops generalizing s with
  | nil =>
      simp [hubRun, regCount]
  | cons op rest ih =>
      have h1 := hubStep_close_le s op c
      have h2 := ih (hubStep s op)
      rw [regCount_cons]
      simp only [hubRun, List.foldl_cons] at h2 ⊢
      omega

/-- Claim C8 (amended): over any operation sequence that registers
each client at most once, each send queue is closed at most once; a
close is performed by the unregister path removing a present client
or by the register path rejecting a client whose session is at the
cap, and by no other path. -/
theorem C8_close_at_most_once (ops : List HubOp) (c : Client)
    (h : regCount ops c ≤ 1) :
    closeCount (hubRun initialHub ops).closes c ≤ 1 := by
  have hle := hubRun_close_le ops initialHub c
  have hinit : closeCount initialHub.closes c = 0 := rfl
  have hmem : c ∉ sessionClients initialHub c.sessionID := by
    simp [sessionClients, initialHub, alistLookup]
  rw [hinit, if_neg hmem] at hle
  omega

/-- Witness for C8_close_at_most_once: the rejected eleventh client of
the capped run is closed exactly once, hence at most once. -/
theorem C8_close_at_most_once_witness :
    regCount (capOps.concat (.register clientEleven)) clientEleven ≤ 1 ∧
    closeCount (hubRun initialHub (capOps.concat (.register clientEleven))).closes
      clientEleven ≤ 1 :=
  ⟨by decide,
   C8_close_at_most_once (capOps.concat (.register clientEleven)) clientEleven (by decide)⟩

end Stag
